import Mathlib

/-!
Verification of the model-training pipeline of a credit-card fraud-detection
repository (scripts: model_training.py, data_cleaning.py, config.py).

The pipeline operates on pandas data frames.  Two levels of shallow embedding
are used:

* a row-level model (`LRow`): a labeled row reduced to a numeric identifier and
  its binary class label.  The split, class-balancing and model-selection logic
  of model_training.py only inspects labels and row identity, so this level is
  faithful for those functions.  The seeded pseudo-random choices made by
  sklearn / imblearn (which rows a shuffle places where) are abstracted as the
  deterministic choice that keeps input order; all counting, partitioning and
  identifier-freshness behaviour is preserved exactly.

* a column-level model (`DFrame`): a data frame as an association list from
  column names to rational-valued columns, used for data_cleaning.preprocess_data,
  where the claims concern column accesses (KeyError), the free-variable
  `upper_bound` (NameError) and empty inputs.  Transcendental float functions
  (np.sin, np.cos, np.log1p, the square root inside pandas std) are passed as
  explicit function parameters; every claim proved about this model holds for
  every choice of those functions.

Machine floats are modelled as exact rationals (ℝ where square roots are
compared); the float roundings of the source do not affect any property stated
below at the inputs considered.
-/

/-- A labeled dataset row: `id` is the row identity (pandas index), `fraud`
is the binary class label (`true` = class 1 = fraud, `false` = class 0). -/
structure LRow where
  id : Nat
  fraud : Bool
deriving DecidableEq, Repr

/-- Number of class-0 rows (`class_counts[0]` in handle_imbalanced_data). -/
def majorityCount (rows : List LRow) : Nat :=
  (rows.filter (fun r => !r.fraud)).length

/-- Number of class-1 rows (`class_counts[1]` in handle_imbalanced_data). -/
def minorityCount (rows : List LRow) : Nat :=
  (rows.filter (fun r => r.fraud)).length

/-- Fraction of fraud rows in a dataset, as an exact rational. -/
def fraudRatio (rows : List LRow) : ℚ :=
  (minorityCount rows : ℚ) / (rows.length : ℚ)

/-- `TEST_SIZE` from config.py. -/
def TEST_SIZE_num : Nat := 1
/-- Denominator of `TEST_SIZE = 0.2`. -/
def TEST_SIZE_den : Nat := 5

/-- sklearn `_validate_shuffle_split`: with a float `test_size`,
`n_test = ceil(test_size * n)`.  With `TEST_SIZE = 0.2` this is `ceil(n / 5)`
(the float product is exact at these magnitudes). -/
def nTestOf (n : Nat) : Nat := (n + 4) / 5

/-- sklearn `_approximate_mode` specialised to two classes: distribute `draws`
draws between classes of sizes `c0` and `c1` proportionally, flooring, then
give the (at most one) remaining draw to the class with the larger fractional
remainder.  The library breaks exact remainder ties with the seeded RNG; the
embedding breaks them towards class 0 (no claim below depends on a tie). -/
def approxMode2 (c0 c1 draws : Nat) : Nat × Nat :=
  if draws - (c0 * draws / (c0 + c1) + c1 * draws / (c0 + c1)) = 0 then
    (c0 * draws / (c0 + c1), c1 * draws / (c0 + c1))
  else if c0 * draws % (c0 + c1) < c1 * draws % (c0 + c1) then
    (c0 * draws / (c0 + c1), c1 * draws / (c0 + c1) + 1)
  else
    (c0 * draws / (c0 + c1) + 1, c1 * draws / (c0 + c1))

/-- model_training.prepare_train_test_split (lines 53-78): stratified
train/test split via sklearn `train_test_split(..., test_size=TEST_SIZE,
random_state=RANDOM_STATE, stratify=target)`, i.e. `StratifiedShuffleSplit`:
`n_test = ceil(0.2 n)`, per-class train counts by `_approximate_mode` on
`n_train`, the remaining rows of each class forming the test set.  The seeded
shuffle is abstracted as keeping input order (train takes the first allocated
rows of each class); the validity checks are the ones the library raises. -/
def prepare_train_test_split (rows : List LRow) :
    Except String (List LRow × List LRow) :=
  let n := rows.length
  let nT := nTestOf n
  let nTr := n - nT
  let zs := rows.filter (fun r => !r.fraud)
  let os := rows.filter (fun r => r.fraud)
  let c0 := zs.length
  let c1 := os.length
  if nT = 0 ∨ nTr = 0 then
    .error "train_test_split: resulting train or test set is empty"
  else if (0 < c0 ∧ c0 < 2) ∨ (0 < c1 ∧ c1 < 2) then
    .error "The least populated class in y has only 1 member"
  else if nT < (if 0 < c0 then 1 else 0) + (if 0 < c1 then 1 else 0) ∨
          nTr < (if 0 < c0 then 1 else 0) + (if 0 < c1 then 1 else 0) then
    .error "The train or test size is smaller than the number of classes"
  else
    let p := approxMode2 c0 c1 nTr
    .ok (zs.take p.1 ++ os.take p.2, zs.drop p.1 ++ os.drop p.2)

/-- model_training.handle_imbalanced_data (lines 96-123).
`target_majority = int(M * UNDERSAMPLING_RATIO)` with ratio 0.5, i.e. `M / 2`;
RandomUnderSampler keeps `target_majority` majority rows (seeded sampling
without replacement, abstracted as keeping the first ones in input order) and
all minority rows; then SMOTE with targets
`{0: target_majority, 1: int(target_majority * 0.5)}` appends synthetic
minority rows (fresh identifiers starting at `fresh`).  The error cases are
the ones pandas / imblearn raise: `class_counts[k]` raises KeyError when class
`k` is absent; SMOTE raises ValueError when a requested class target is below
the current count, and a k-nearest-neighbours error when it must synthesise
from at most `k_neighbors = 5` minority samples. -/
def handle_imbalanced_data (rows : List LRow) (fresh : Nat) :
    Except String (List LRow) :=
  let c0 := majorityCount rows
  let c1 := minorityCount rows
  if c0 = 0 then .error "KeyError: 0"
  else if c1 = 0 then .error "KeyError: 1"
  else
    let tM := c0 / 2
    let majKept := (rows.filter (fun r => !r.fraud)).take tM
    let mins := rows.filter (fun r => r.fraud)
    let tN := tM / 2
    if tN < c1 then
      .error "SMOTE ValueError: target below original class count"
    else if c1 < tN ∧ c1 ≤ 5 then
      .error "SMOTE ValueError: expected n_neighbors <= n_samples"
    else
      .ok (majKept ++ mins ++
        (List.range (tN - c1)).map (fun i => ⟨fresh + i, true⟩))

/-- model_training.main (lines 286-303) restricted to its dataflow: the split
produces (train, test); only the train partition (after column selection,
which leaves rows untouched) is passed to handle_imbalanced_data; the test
partition flows to evaluation unchanged. -/
def run_pipeline (df : List LRow) (fresh : Nat) :
    Except String (List LRow × List LRow) := do
  let tt ← prepare_train_test_split df
  let bal ← handle_imbalanced_data tt.1 fresh
  pure (bal, tt.2)

/-- The three model families of model_training.train_models (lines 129-133),
in the insertion order of the `models` dict (Python dicts preserve insertion
order, so iteration, training, evaluation and the rows of the comparison
data frame all use this order). -/
inductive ModelName where
  | logistic_regression
  | random_forest
  | gradient_boosting
deriving DecidableEq, Repr

/-- Enumeration order of the model families. -/
def modelOrder : List ModelName :=
  [.logistic_regression, .random_forest, .gradient_boosting]

/-- Position of a model family in the fixed enumeration order. -/
def ordIdx : ModelName → Nat
  | .logistic_regression => 0
  | .random_forest => 1
  | .gradient_boosting => 2

/-- The loop body of train_models (lines 146-181): for each model family in
order, run cross-validation and fit (`cross_val_score` then `model.fit`,
collapsed into one fallible step, since the loop contains no try/except: any
exception raised for one family propagates out of the whole loop, abandoning
the families not yet processed).  On success the fitted family is appended to
`trained_models`. -/
def trainLoop (fit : ModelName → Except String Unit) :
    List ModelName → Except String (List ModelName)
  | [] => .ok []
  | m :: ms =>
    match fit m with
    | .error e => .error e
    | .ok _ =>
      match trainLoop fit ms with
      | .error e => .error e
      | .ok rest => .ok (m :: rest)

/-- model_training.train_models (lines 125-182), parameterised by the
outcome of cross-validating and fitting each family. -/
def train_models (fit : ModelName → Except String Unit) :
    Except String (List ModelName) :=
  trainLoop fit modelOrder

/-- The per-model test metrics stored by evaluate_models (lines 233-239):
AUC and the positive-class precision, recall and F1 score. -/
structure Metrics where
  auc : ℚ
  prec : ℚ
  recl : ℚ
  f1 : ℚ
deriving DecidableEq, Repr

/-- Tail of pandas `Series.idxmax`: scan positions `i, i+1, ...`, replacing
the current best `(bi, bv)` only on a strictly larger value, so the first
occurrence of the maximum wins. -/
def idxmaxGo : List ℚ → Nat → Nat → ℚ → Nat
  | [], _, bi, _ => bi
  | x :: xs, i, bi, bv =>
    if bv < x then idxmaxGo xs (i + 1) i x else idxmaxGo xs (i + 1) bi bv

/-- pandas `Series.idxmax`: index of the first occurrence of the maximum
(`results_df['AUC'].idxmax()` at line 255). -/
def idxmax : List ℚ → Nat
  | [] => 0
  | x :: xs => idxmaxGo xs 1 0 x

/-- model_training.evaluate_models lines 241-256: the comparison table lists
the models in enumeration order with their AUCs; the best model is the one at
`idxmax` of the AUC column. -/
def best_model_name (res : ModelName → Metrics) : ModelName :=
  (modelOrder.getD (idxmax (modelOrder.map (fun m => (res m).auc)))
    ModelName.logistic_regression)

/-- A wall-clock timestamp as produced by `datetime.now()`. -/
structure PyTimestamp where
  year : Nat
  month : Nat
  day : Nat
  hour : Nat
  minute : Nat
  second : Nat
deriving DecidableEq, Repr

/-- Zero-padding to two digits (strftime `%m`, `%d`, `%H`, `%M`, `%S`). -/
def pad2 (n : Nat) : String :=
  if n < 10 then "0" ++ toString n else toString n

/-- Zero-padding to four digits (strftime `%Y`). -/
def pad4 (n : Nat) : String :=
  if n < 10 then "000" ++ toString n
  else if n < 100 then "00" ++ toString n
  else if n < 1000 then "0" ++ toString n
  else toString n

/-- `datetime.now().strftime('%Y-%m-%d %H:%M:%S')` (line 265): date and time
separated by a space. -/
def strftimeTrainingDate (t : PyTimestamp) : String :=
  pad4 t.year ++ "-" ++ pad2 t.month ++ "-" ++ pad2 t.day ++ " " ++
    pad2 t.hour ++ ":" ++ pad2 t.minute ++ ":" ++ pad2 t.second

/-- The `model_info` record written next to the serialized best model
(lines 263-273): exactly the best model name, the formatted training date,
the four metrics of the best model (the nested `metrics` dict flattened into
four fields), and `feature_count = len(X_test.columns)`. -/
structure ModelInfo where
  model_name : ModelName
  training_date : String
  auc : ℚ
  prec : ℚ
  recl : ℚ
  f1 : ℚ
  feature_count : Nat
deriving DecidableEq, Repr

/-- Lines 254-277 of evaluate_models: select the best model by AUC and build
the metadata record, with `testCols` the columns of the `X_test` argument. -/
def make_model_info (res : ModelName → Metrics) (now : PyTimestamp)
    (testCols : List String) : ModelInfo :=
  let best := best_model_name res
  ⟨best, strftimeTrainingDate now, (res best).auc, (res best).prec,
    (res best).recl, (res best).f1, testCols.length⟩

/-- Modelled from the spec: an ISO 8601 combined date-and-time representation
`YYYY-MM-DDThh:mm:ss` — four digit year, two digit month, day, hour, minute
and second, with `-`/`:` separators and the time designator `T` between the
date and the time. -/
def isISO8601DateTime (s : String) : Bool :=
  match s.toList with
  | [y1, y2, y3, y4, a, m1, m2, b, d1, d2, t, h1, h2, c, n1, n2, d, s1, s2] =>
    y1.isDigit && y2.isDigit && y3.isDigit && y4.isDigit && a = '-' &&
    m1.isDigit && m2.isDigit && b = '-' && d1.isDigit && d2.isDigit &&
    t = 'T' && h1.isDigit && h2.isDigit && c = ':' && n1.isDigit &&
    n2.isDigit && d = ':' && s1.isDigit && s2.isDigit
  | _ => false

/-- The column names `V1` ... `V28` (`V_FEATURES` in config.py). -/
def vFeatureNames : List String :=
  (List.range 28).map (fun i => "V" ++ toString (i + 1))

/-- Python `str.startswith`: the pattern is a prefix of the string. -/
def pyStartsWith (s p : String) : Bool :=
  p.toList.isPrefixOf s.toList

/-- model_training.preprocess_features (lines 80-94): keep the columns whose
name starts with `V`, plus those among `Amount_Scaled`, `Hour_Sin`,
`Hour_Cos`, `V_Sum`, `V_Mean`, `V_Std` (order preserved). -/
def preprocess_features (cols : List String) : List String :=
  cols.filter (fun c =>
    pyStartsWith c "V" ||
      decide (c ∈ ["Amount_Scaled", "Hour_Sin", "Hour_Cos",
                   "V_Sum", "V_Mean", "V_Std"]))

/-- The columns of `X_train` / `X_test` as produced by the cleaning script and
the split (raw columns `Time`, `V1..V28`, `Amount` in csv order, the columns
appended by preprocess_data in creation order, minus the dropped `Class`). -/
def preparedFeatureCols : List String :=
  ["Time"] ++ vFeatureNames ++
    ["Amount", "Hour_Sin", "Hour_Cos", "Amount_Log", "Amount_Scaled",
     "Amount_Outlier", "V_Sum", "V_Mean", "V_Std"]

/-- A Python exception relevant to data_cleaning.preprocess_data: pandas
raises `KeyError` for a missing column; evaluating an undefined name raises
`NameError`. -/
inductive PyErr where
  | keyError : String → PyErr
  | nameError : String → PyErr
deriving DecidableEq, Repr

/-- A data-frame column of float values, modelled as exact rationals. -/
abbrev Col := List ℚ

/-- A pandas data frame: named columns (lookup finds the most recent
assignment first, modelling column overwrite). -/
abbrev DFrame := List (String × Col)

/-- `df[name]`: raises `KeyError` when the column is absent. -/
def getCol (df : DFrame) (name : String) : Except PyErr Col :=
  match df.lookup name with
  | some c => .ok c
  | none => .error (.keyError name)

/-- `df[names]` for a list of column names: `KeyError` as soon as one is
absent (pandas reports all missing names; the embedding keeps the first). -/
def getCols (df : DFrame) : List String → Except PyErr (List Col)
  | [] => .ok []
  | nm :: nms => do
    let c ← getCol df nm
    let cs ← getCols df nms
    pure (c :: cs)

/-- `df[name] = col`. -/
def setCol (df : DFrame) (name : String) (c : Col) : DFrame :=
  (name, c) :: df

/-- Number of rows of a data frame (length of its first column). -/
def nRows (df : DFrame) : Nat :=
  match df with
  | [] => 0
  | (_, c) :: _ => c.length

/-- pandas `Series.mean`: sum divided by length (0/0 for the empty column,
where pandas yields NaN; no claim below inspects that value). -/
def colMean (c : Col) : ℚ :=
  c.sum / (c.length : ℚ)

/-- pandas `Series.std` (default `ddof=1`): square root (the parameter
`sqrtF`) of the sum of squared deviations divided by `n - 1`. -/
def colStd (sqrtF : ℚ → ℚ) (c : Col) : ℚ :=
  sqrtF ((c.map (fun x => (x - colMean c) ^ 2)).sum / ((c.length - 1 : ℕ) : ℚ))

/-- numpy float remainder by 24 (`hours = processed_df['Time'] * 24 % 24`). -/
def qmod24 (x : ℚ) : ℚ := x - 24 * (⌊x / 24⌋ : ℚ)

/-- data_cleaning.preprocess_data (lines 69-112), parameterised by the float
constant `np.pi` (`piQ`) and the float functions `np.sin`, `np.cos`,
`np.log1p` and the square root used inside pandas `std` — every theorem below
holds for every choice of these.  `upper_bound` is the free variable read at
line 103: it is a module global defined only by the `__main__` block of
data_cleaning.py (lines 192-199), so it is `none` whenever preprocess_data is
reached through an import (the fallback path of
model_training.load_prepared_data), and evaluating it then raises
`NameError`. -/
def preprocess_data (piQ : ℚ) (sinF cosF log1pF sqrtF : ℚ → ℚ)
    (upper_bound : Option ℚ) (df : DFrame) : Except PyErr DFrame := do
  let time ← getCol df "Time"
  let df1 := setCol df "Time" (time.map (fun t => t / (60 * 60 * 24)))
  let time1 ← getCol df1 "Time"
  let hours := time1.map (fun t => qmod24 (t * 24))
  let df2 := setCol df1 "Hour_Sin" (hours.map (fun h => sinF (2 * piQ * h / 24)))
  let df3 := setCol df2 "Hour_Cos" (hours.map (fun h => cosF (2 * piQ * h / 24)))
  let amount ← getCol df3 "Amount"
  let df4 := setCol df3 "Amount_Log" (amount.map log1pF)
  let vcols ← getCols df4 vFeatureNames
  let _vMeans := vcols.map colMean
  let _vStds := vcols.map (colStd sqrtF)
  let alog ← getCol df4 "Amount_Log"
  let aMean := colMean alog
  let aStd := colStd sqrtF alog
  let df5 := setCol df4 "Amount_Scaled" (alog.map (fun x => (x - aMean) / aStd))
  let amount2 ← getCol df5 "Amount"
  let ub ← match upper_bound with
    | some u => Except.ok u
    | none => Except.error (.nameError "upper_bound")
  let df6 := setCol df5 "Amount_Outlier"
    (amount2.map (fun a => if ub < a then (1 : ℚ) else 0))
  let vcols2 ← getCols df6 vFeatureNames
  let vrows := vcols2.transpose
  let df7 := setCol df6 "V_Sum" (vrows.map List.sum)
  let df8 := setCol df7 "V_Mean" (vrows.map colMean)
  let df9 := setCol df8 "V_Std" (vrows.map (colStd sqrtF))
  pure df9

/-- The columns preprocess_data reads from its input frame. -/
def requiredSourceCols : List String :=
  ["Time", "Amount"] ++ vFeatureNames

/-- The fallback path of model_training.load_prepared_data (lines 36-48): when
the cleaned csv is absent, it imports preprocess_data from data_cleaning and
applies it to the raw frame.  On this path the `__main__` block of
data_cleaning.py has not run, so the module global `upper_bound` is
undefined. -/
def load_prepared_data_fallback (piQ : ℚ) (sinF cosF log1pF sqrtF : ℚ → ℚ)
    (raw : DFrame) : Except PyErr DFrame :=
  preprocess_data piQ sinF cosF log1pF sqrtF none raw

/-- Row-wise sum of squared deviations from the row mean. -/
def vRowSqDev (v : List ℚ) : ℚ :=
  (v.map (fun x => (x - colMean v) ^ 2)).sum

/-- The variance pandas `std(axis=1)` takes the square root of: divisor
`n - 1` (the default `ddof = 1`). -/
def sampleVariance (v : List ℚ) : ℚ :=
  vRowSqDev v / ((v.length - 1 : ℕ) : ℚ)

/-- Modelled from the spec: the population variance, divisor `n`. -/
def popVariance (v : List ℚ) : ℚ :=
  vRowSqDev v / (v.length : ℚ)

/-- `processed_df['V_Sum']` (data_cleaning line 107): row-wise sum over the
28 anonymized components. -/
def v_Sum (v : List ℚ) : ℚ := v.sum

/-- `processed_df['V_Mean']` (data_cleaning line 108): row-wise mean. -/
def v_Mean (v : List ℚ) : ℚ := colMean v

/-- `processed_df['V_Std']` (data_cleaning line 109): pandas
`DataFrame.std(axis=1)` with its default `ddof = 1`, i.e. the sample standard
deviation of the row; the float square root is modelled as the exact real
square root. -/
noncomputable def v_Std (v : List ℚ) : ℝ :=
  Real.sqrt ((sampleVariance v : ℚ) : ℝ)

/-- Modelled from the spec: the row-wise population standard deviation
(divisor `n = 28`) the spec ascribes to the aggregate feature. -/
noncomputable def specPopStd (v : List ℚ) : ℝ :=
  Real.sqrt ((popVariance v : ℚ) : ℝ)

/-- C2: for every assignment of test-set AUC scores to the three evaluated
models, evaluate_models selects a model with the highest AUC, and on ties the
selected model is the first of the tied ones in the fixed enumeration order
logistic_regression → random_forest → gradient_boosting. -/
theorem claim_C2_selection (res : ModelName → Metrics) :
    (∀ m, (res m).auc ≤ (res (best_model_name res)).auc) ∧
    (∀ m, (res (best_model_name res)).auc ≤ (res m).auc →
      ordIdx (best_model_name res) ≤ ordIdx m) := by
  simp only [best_model_name, modelOrder, idxmax, idxmaxGo, List.map]
  split_ifs <;>
    (constructor <;> intro m <;> cases m <;>
      simp only [ordIdx, List.getD, List.get?, Option.getD] <;>
      first
        | rfl
        | omega
        | linarith
        | (intro h; linarith))

/-- A fit outcome where the first model family (logistic_regression) raises a
convergence error and the other two families would fit successfully. -/
def fitFailFirst : ModelName → Except String Unit :=
  fun m => match m with
    | .logistic_regression => .error "ConvergenceError"
    | _ => .ok ()

/-- C3 counterexample: when the first model family raises inside train_models,
the whole call raises — the remaining families, whose own fits succeed, are
not trained and nothing is returned for comparison; there is no
AllModelsFailedError path (the exception is the fit error itself). -/
theorem claim_C3_counterexample :
    train_models fitFailFirst = .error "ConvergenceError" ∧
    fitFailFirst .random_forest = .ok () ∧
    fitFailFirst .gradient_boosting = .ok () := by
  constructor
  · rfl
  · exact ⟨rfl, rfl⟩

/-- C3 amended: train_models has no per-model isolation: if a model family's
cross-validation or fit raises and every earlier family in the enumeration
order succeeded, the exception propagates out of train_models itself (so later
families are not trained, no model set is returned, and no
AllModelsFailedError distinction exists — the pipeline's main catches the
propagated exception).  Conversely, when every family fits, all three are
trained in order. -/
theorem claim_C3_amended (fit : ModelName → Except String Unit)
    (e : String) (m : ModelName) (hm : fit m = .error e)
    (hearlier : ∀ m2, ordIdx m2 < ordIdx m → fit m2 = .ok ()) :
    train_models fit = .error e ∧
    ((∀ m2, fit m2 = .ok ()) → train_models fit = .ok modelOrder) := by
  constructor
  · cases m with
    | logistic_regression =>
      simp [train_models, trainLoop, modelOrder, hm]
    | random_forest =>
      have h0 := hearlier .logistic_regression (by simp [ordIdx])
      simp [train_models, trainLoop, modelOrder, hm, h0]
    | gradient_boosting =>
      have h0 := hearlier .logistic_regression (by simp [ordIdx])
      have h1 := hearlier .random_forest (by simp [ordIdx])
      simp [train_models, trainLoop, modelOrder, hm, h0, h1]
  · intro hall
    simp [train_models, trainLoop, modelOrder, hall]

/-- Witness for the amended C3 theorem at the concrete failing fit. -/
theorem claim_C3_amended_witness :
    train_models fitFailFirst = .error "ConvergenceError" ∧
    ((∀ m2, fitFailFirst m2 = .ok ()) →
      train_models fitFailFirst = .ok modelOrder) :=
  claim_C3_amended fitFailFirst "ConvergenceError" .logistic_regression rfl
    (fun m2 h => absurd h (by cases m2 <;> simp [ordIdx]))

/-- C10: the features actually used for training and evaluation are exactly
the columns whose names start with `V` (the 28 anonymized components plus
`V_Sum`, `V_Mean`, `V_Std`) together with `Amount_Scaled`, `Hour_Sin` and
`Hour_Cos`; on the prepared column set this list has the 34 expected names,
and `Amount_Outlier`, `Time`, `Amount` and `Amount_Log` are excluded. -/
theorem claim_C10_selected_features :
    (∀ cols c, c ∈ preprocess_features cols ↔
      (c ∈ cols ∧ (pyStartsWith c "V" = true ∨ c = "Amount_Scaled" ∨
        c = "Hour_Sin" ∨ c = "Hour_Cos"))) ∧
    preprocess_features preparedFeatureCols =
      vFeatureNames ++ ["Hour_Sin", "Hour_Cos", "Amount_Scaled",
        "V_Sum", "V_Mean", "V_Std"] ∧
    (preprocess_features preparedFeatureCols).length = 34 ∧
    "Amount_Outlier" ∉ preprocess_features preparedFeatureCols ∧
    "Time" ∉ preprocess_features preparedFeatureCols ∧
    "Amount" ∉ preprocess_features preparedFeatureCols ∧
    "Amount_Log" ∉ preprocess_features preparedFeatureCols := by
  refine ⟨?_, by decide, by decide, by decide, by decide, by decide, by decide⟩
  intro cols c
  rw [preprocess_features, List.mem_filter]
  simp only [Bool.or_eq_true, decide_eq_true_eq, List.mem_cons,
    List.not_mem_nil, or_false]
  constructor
  · rintro ⟨hc, h | (rfl | rfl | rfl | rfl | rfl | rfl)⟩
    · exact ⟨hc, Or.inl h⟩
    · exact ⟨hc, Or.inr (Or.inl rfl)⟩
    · exact ⟨hc, Or.inr (Or.inr (Or.inl rfl))⟩
    · exact ⟨hc, Or.inr (Or.inr (Or.inr rfl))⟩
    · exact ⟨hc, Or.inl (by decide)⟩
    · exact ⟨hc, Or.inl (by decide)⟩
    · exact ⟨hc, Or.inl (by decide)⟩
  · rintro ⟨hc, h | (rfl | rfl | rfl)⟩
    · exact ⟨hc, Or.inl h⟩
    · exact ⟨hc, Or.inr (Or.inl rfl)⟩
    · exact ⟨hc, Or.inr (Or.inr (Or.inl rfl))⟩
    · exact ⟨hc, Or.inr (Or.inr (Or.inr (Or.inl rfl)))⟩

theorem lookup_setCol_self (df : DFrame) (nm : String) (c : Col) :
    (setCol df nm c).lookup nm = some c := by
  simp [setCol, List.lookup]

theorem lookup_setCol_ne (df : DFrame) (nm nm2 : String) (c : Col)
    (h : nm2 ≠ nm) : (setCol df nm c).lookup nm2 = df.lookup nm2 := by
  simp [setCol, List.lookup, beq_eq_false_iff_ne.mpr h]

theorem getCols_congr (df df2 : DFrame) (names : List String)
    (h : ∀ nm ∈ names, df2.lookup nm = df.lookup nm) :
    getCols df2 names = getCols df names := by
  induction names with
  | nil => rfl
  | cons a as ih =>
    have ha := h a (List.mem_cons_self a as)
    have hrec := ih (fun nm hm => h nm (List.mem_cons_of_mem a hm))
    simp [getCols, getCol, ha, hrec]

theorem getCols_ok (df : DFrame) (names : List String)
    (h : ∀ nm ∈ names, (df.lookup nm).isSome) :
    ∃ cs, getCols df names = .ok cs := by
  induction names with
  | nil => exact ⟨[], rfl⟩
  | cons a as ih =>
    have ha := h a (List.mem_cons_self a as)
    obtain ⟨ca, hca⟩ := Option.isSome_iff_exists.mp ha
    obtain ⟨cs, hcs⟩ := ih (fun nm hm => h nm (List.mem_cons_of_mem a hm))
    refine ⟨ca :: cs, ?_⟩
    simp only [getCols, getCol, hca, hcs]
    rfl

theorem getCols_err (df : DFrame) (names : List String)
    (h : ¬ ∀ nm ∈ names, (df.lookup nm).isSome) :
    ∃ nm, nm ∈ names ∧ df.lookup nm = none ∧
      getCols df names = .error (.keyError nm) := by
  induction names with
  | nil => exact absurd (by simp) h
  | cons a as ih =>
    by_cases ha : (df.lookup a).isSome
    · obtain ⟨ca, hca⟩ := Option.isSome_iff_exists.mp ha
      have has : ¬ ∀ nm ∈ as, (df.lookup nm).isSome := by
        intro hall
        refine h ?_
        intro nm hm
        rcases List.mem_cons.mp hm with rfl | hm2
        · exact ha
        · exact hall nm hm2
      obtain ⟨nm, hnm, hnone, herr⟩ := ih has
      refine ⟨nm, List.mem_cons_of_mem a hnm, hnone, ?_⟩
      simp only [getCols, getCol, hca, herr]
      rfl
    · have hnone : df.lookup a = none := Option.not_isSome_iff_eq_none.mp ha
      refine ⟨a, List.mem_cons_self a as, hnone, ?_⟩
      simp only [getCols, getCol, hnone]
      rfl

theorem getCols_setCol_ne (df : DFrame) (nm : String) (c : Col)
    (names : List String) (h : ∀ x ∈ names, x ≠ nm) :
    getCols (setCol df nm c) names = getCols df names :=
  getCols_congr df (setCol df nm c) names
    (fun x hx => lookup_setCol_ne df nm x c (h x hx))

theorem vnames_ne : ∀ nm ∈ vFeatureNames, nm ≠ "Time" ∧ nm ≠ "Hour_Sin" ∧
    nm ≠ "Hour_Cos" ∧ nm ≠ "Amount_Log" ∧ nm ≠ "Amount_Scaled" ∧
    nm ≠ "Amount_Outlier" := by decide

/-- C7 amended: with the `upper_bound` global defined (the path on which the
`__main__` block has run), preprocess_data succeeds exactly when the columns
it reads — `Time`, `Amount` and `V1..V28` — are all present, and any failure
is a `KeyError` naming one of those columns when it is absent.  In
particular there are no `DataFormatError` / `EmptyDatasetError` types: absence
of the label column `Class` is not checked at all, and a zero-row input is
processed without error. -/
theorem claim_C7_amended (piQ : ℚ) (sinF cosF log1pF sqrtF : ℚ → ℚ) (u : ℚ)
    (df : DFrame) :
    ((∀ nm ∈ requiredSourceCols, (df.lookup nm).isSome) ∧
      (preprocess_data piQ sinF cosF log1pF sqrtF (some u) df).isOk = true) ∨
    (∃ nm, nm ∈ requiredSourceCols ∧ df.lookup nm = none ∧
      preprocess_data piQ sinF cosF log1pF sqrtF (some u) df =
        .error (.keyError nm)) := by
  cases hT : df.lookup "Time" with
  | none =>
    refine Or.inr ⟨"Time", by decide, hT, ?_⟩
    simp [preprocess_data, getCol, hT, Bind.bind, Except.bind]
  | some ct =>
    cases hA : df.lookup "Amount" with
    | none =>
      refine Or.inr ⟨"Amount", by decide, hA, ?_⟩
      simp only [preprocess_data, getCol, hT, Bind.bind, Except.bind,
        lookup_setCol_self]
      rw [lookup_setCol_ne _ _ _ _ (show ("Amount" : String) ≠ "Hour_Cos" from by decide),
        lookup_setCol_ne _ _ _ _ (show ("Amount" : String) ≠ "Hour_Sin" from by decide),
        lookup_setCol_ne _ _ _ _ (show ("Amount" : String) ≠ "Time" from by decide), hA]
    | some ca =>
      by_cases hV : ∀ nm ∈ vFeatureNames, (df.lookup nm).isSome
      · refine Or.inl ⟨?_, ?_⟩
        · intro nm hm
          rw [requiredSourceCols] at hm
          rcases List.mem_append.mp hm with h2 | h2
          · rcases List.mem_cons.mp h2 with rfl | h3
            · simp [hT]
            · rcases List.mem_cons.mp h3 with rfl | h4
              · simp [hA]
              · exact absurd h4 (List.not_mem_nil nm)
          · exact hV nm h2
        · obtain ⟨cs, hcs⟩ := getCols_ok df vFeatureNames hV
          simp only [preprocess_data, getCol, hT, Bind.bind, Except.bind,
            lookup_setCol_self]
          rw [lookup_setCol_ne _ _ _ _ (show ("Amount" : String) ≠ "Hour_Cos" from by decide),
            lookup_setCol_ne _ _ _ _ (show ("Amount" : String) ≠ "Hour_Sin" from by decide),
            lookup_setCol_ne _ _ _ _ (show ("Amount" : String) ≠ "Time" from by decide), hA]
          simp only [Bind.bind, Except.bind]
          rw [getCols_setCol_ne _ _ _ _ (fun x hx => (vnames_ne x hx).2.2.2.1),
            getCols_setCol_ne _ _ _ _ (fun x hx => (vnames_ne x hx).2.2.1),
            getCols_setCol_ne _ _ _ _ (fun x hx => (vnames_ne x hx).2.1),
            getCols_setCol_ne _ _ _ _ (fun x hx => (vnames_ne x hx).1), hcs]
          simp only [Bind.bind, Except.bind, lookup_setCol_self]
          rw [lookup_setCol_ne _ _ _ _ (show ("Amount" : String) ≠ "Amount_Scaled" from by decide),
            lookup_setCol_ne _ _ _ _ (show ("Amount" : String) ≠ "Amount_Log" from by decide),
            lookup_setCol_ne _ _ _ _ (show ("Amount" : String) ≠ "Hour_Cos" from by decide),
            lookup_setCol_ne _ _ _ _ (show ("Amount" : String) ≠ "Hour_Sin" from by decide),
            lookup_setCol_ne _ _ _ _ (show ("Amount" : String) ≠ "Time" from by decide), hA]
          simp only [Bind.bind, Except.bind]
          rw [getCols_setCol_ne _ _ _ _ (fun x hx => (vnames_ne x hx).2.2.2.2.2),
            getCols_setCol_ne _ _ _ _ (fun x hx => (vnames_ne x hx).2.2.2.2.1),
            getCols_setCol_ne _ _ _ _ (fun x hx => (vnames_ne x hx).2.2.2.1),
            getCols_setCol_ne _ _ _ _ (fun x hx => (vnames_ne x hx).2.2.1),
            getCols_setCol_ne _ _ _ _ (fun x hx => (vnames_ne x hx).2.1),
            getCols_setCol_ne _ _ _ _ (fun x hx => (vnames_ne x hx).1), hcs]
          simp [Except.isOk, Except.toBool, Bind.bind, Except.bind,
            Pure.pure, Except.pure]
      · obtain ⟨nm, hnm, hnone, herr⟩ := getCols_err df vFeatureNames hV
        refine Or.inr ⟨nm, ?_, hnone, ?_⟩
        · rw [requiredSourceCols]
          exact List.mem_append.mpr (Or.inr hnm)
        · simp only [preprocess_data, getCol, hT, Bind.bind, Except.bind,
            lookup_setCol_self]
          rw [lookup_setCol_ne _ _ _ _ (show ("Amount" : String) ≠ "Hour_Cos" from by decide),
            lookup_setCol_ne _ _ _ _ (show ("Amount" : String) ≠ "Hour_Sin" from by decide),
            lookup_setCol_ne _ _ _ _ (show ("Amount" : String) ≠ "Time" from by decide), hA]
          simp only [Bind.bind, Except.bind]
          rw [getCols_setCol_ne _ _ _ _ (fun x hx => (vnames_ne x hx).2.2.2.1),
            getCols_setCol_ne _ _ _ _ (fun x hx => (vnames_ne x hx).2.2.1),
            getCols_setCol_ne _ _ _ _ (fun x hx => (vnames_ne x hx).2.1),
            getCols_setCol_ne _ _ _ _ (fun x hx => (vnames_ne x hx).1), herr]

/-- A well-formed raw input frame: all 31 expected columns, one row. -/
def rawCols31 : DFrame :=
  ("Time", ([0] : Col)) :: ("Amount", ([5] : Col)) ::
    (vFeatureNames.map (fun nm => (nm, ([0] : Col)))) ++
      [("Class", ([0] : Col))]

/-- A zero-row frame with every column preprocess_data reads, but without
the label column `Class`. -/
def noClassCols30 : DFrame :=
  ("Time", ([] : Col)) :: ("Amount", ([] : Col)) ::
    (vFeatureNames.map (fun nm => (nm, ([] : Col))))

/-- C7 counterexample: an input frame that lacks the label column and has
zero rows is processed without any error — preprocess_data returns output
instead of failing with `DataFormatError` (label absent) or
`EmptyDatasetError` (zero rows); no such error types exist in the code. -/
theorem claim_C7_counterexample :
    (preprocess_data 0 id id id id (some 0) noClassCols30).isOk = true ∧
    noClassCols30.lookup "Class" = none ∧
    nRows noClassCols30 = 0 := by
  refine ⟨by rfl, by decide, by rfl⟩

/-- C9: on the import path taken by model_training.load_prepared_data, a
valid, well-formed, non-empty input (all 31 columns present, one row) makes
preprocess_data fail with `NameError` on the free variable `upper_bound`
(defined only in data_cleaning's `__main__` block); the same input is
processed successfully when `upper_bound` is defined, so the failure is a
property of the path, not of the input. -/
theorem claim_C9_upper_bound_nameerror :
    load_prepared_data_fallback 0 id id id id rawCols31 =
      .error (.nameError "upper_bound") ∧
    (requiredSourceCols.all (fun c => (rawCols31.lookup c).isSome)) = true ∧
    (rawCols31.lookup "Class").isSome = true ∧
    nRows rawCols31 = 1 ∧
    (preprocess_data 0 id id id id (some 0) rawCols31).isOk = true := by
  refine ⟨by rfl, by decide, by decide, by rfl, by rfl⟩

/-- A concrete row of 28 anonymized components: 28 followed by 27 zeros
(mean 1, sum of squared deviations 756). -/
def vEx : List ℚ := 28 :: List.replicate 27 0

/-- C6 counterexample: on a concrete row of 28 components, the `V_Std`
computed by the code (pandas `std(axis=1)`, sample standard deviation,
divisor 27) differs from the population standard deviation (divisor 28) the
claim ascribes to it: √28 versus √27. -/
theorem claim_C6_counterexample :
    vEx.length = 28 ∧ v_Std vEx ≠ specPopStd vEx := by
  refine ⟨by decide, ?_⟩
  have hs : sampleVariance vEx = 28 := by
    norm_num [sampleVariance, vRowSqDev, colMean, vEx, List.sum_replicate,
      List.map_replicate]
  have hp : popVariance vEx = 27 := by
    norm_num [popVariance, vRowSqDev, colMean, vEx, List.sum_replicate,
      List.map_replicate]
  rw [v_Std, specPopStd, hs, hp]
  have hlt : Real.sqrt ((27 : ℚ) : ℝ) < Real.sqrt ((28 : ℚ) : ℝ) := by
    apply Real.sqrt_lt_sqrt <;> norm_num
  exact ne_of_gt hlt

/-- C6 amended: for every record with 28 anonymized components, the three
aggregate features are the row-wise sum, the row-wise mean (sum / 28), and
the row-wise *sample* standard deviation: `V_Std` is the nonnegative real
whose square is the sum of squared deviations divided by `n - 1 = 27`
(pandas `std(axis=1)` default `ddof=1`), not the population standard
deviation with divisor 28. -/
theorem claim_C6_amended (v : List ℚ) (h : v.length = 28) :
    v_Sum v = v.sum ∧ v_Mean v * 28 = v.sum ∧ 0 ≤ v_Std v ∧
    (v_Std v) ^ 2 = ((sampleVariance v : ℚ) : ℝ) ∧
    sampleVariance v * 27 = vRowSqDev v := by
  have hdev : 0 ≤ vRowSqDev v := by
    apply List.sum_nonneg
    intro x hx
    obtain ⟨y, hy, rfl⟩ := List.mem_map.mp hx
    positivity
  have hvar : 0 ≤ sampleVariance v := by
    rw [sampleVariance, h]
    positivity
  refine ⟨rfl, ?_, Real.sqrt_nonneg _, ?_, ?_⟩
  · rw [v_Mean, colMean, h]
    push_cast
    field_simp
  · rw [v_Std]
    exact Real.sq_sqrt (by exact_mod_cast hvar)
  · rw [sampleVariance, h]
    norm_num

/-- Witness for the amended C6 theorem at the concrete row `vEx`. -/
theorem claim_C6_amended_witness :
    vEx.length = 28 ∧
    (v_Sum vEx = vEx.sum ∧ v_Mean vEx * 28 = vEx.sum ∧ 0 ≤ v_Std vEx ∧
      (v_Std vEx) ^ 2 = ((sampleVariance vEx : ℚ) : ℝ) ∧
      sampleVariance vEx * 27 = vRowSqDev vEx) :=
  ⟨by decide, claim_C6_amended vEx (by decide)⟩

/-- Concrete metrics: every model scores AUC 0.95, precision 0.9, recall 0.8,
F1 0.85. -/
def resEx : ModelName → Metrics := fun _ => ⟨95 / 100, 9 / 10, 8 / 10, 85 / 100⟩

/-- A concrete training timestamp: 2026-01-02 03:04:05. -/
def tsEx : PyTimestamp := ⟨2026, 1, 2, 3, 4, 5⟩

/-- C8 counterexample: the persisted training timestamp uses the format
`%Y-%m-%d %H:%M:%S` — date and time separated by a space — which is not an
ISO 8601 combined date-time representation (ISO 8601 places the designator
`T` between the date and the time, as the last conjunct shows the checker
accepts). -/
theorem claim_C8_counterexample :
    (make_model_info resEx tsEx
        (preprocess_features preparedFeatureCols)).training_date =
      "2026-01-02 03:04:05" ∧
    isISO8601DateTime ((make_model_info resEx tsEx
        (preprocess_features preparedFeatureCols)).training_date) = false ∧
    isISO8601DateTime "2026-01-02T03:04:05" = true := by
  refine ⟨by decide, by decide, by decide⟩

/-- C8 amended: the metadata record persisted alongside the selected model
contains exactly the selected model's name, the training timestamp formatted
`YYYY-MM-DD HH:MM:SS` (space-separated, not the ISO 8601 `T` form), the
selected model's four test metrics, and a feature count equal to the length
of the selected feature list used for training and evaluation (34 on the
prepared column set). -/
theorem claim_C8_amended (res : ModelName → Metrics) (now : PyTimestamp)
    (preparedCols : List String) :
    (make_model_info res now (preprocess_features preparedCols)).model_name =
      best_model_name res ∧
    (make_model_info res now (preprocess_features preparedCols)).training_date =
      strftimeTrainingDate now ∧
    (make_model_info res now (preprocess_features preparedCols)).auc =
      (res (best_model_name res)).auc ∧
    (make_model_info res now (preprocess_features preparedCols)).prec =
      (res (best_model_name res)).prec ∧
    (make_model_info res now (preprocess_features preparedCols)).recl =
      (res (best_model_name res)).recl ∧
    (make_model_info res now (preprocess_features preparedCols)).f1 =
      (res (best_model_name res)).f1 ∧
    (make_model_info res now (preprocess_features preparedCols)).feature_count =
      (preprocess_features preparedCols).length ∧
    (make_model_info res now
        (preprocess_features preparedFeatureCols)).feature_count = 34 :=
  ⟨rfl, rfl, rfl, rfl, rfl, rfl, rfl, by rfl⟩

theorem approxMode2_spec (c0 c1 d : Nat) (hd : d < c0 + c1) :
    (approxMode2 c0 c1 d).1 + (approxMode2 c0 c1 d).2 = d ∧
    (approxMode2 c0 c1 d).1 ≤ c0 ∧ (approxMode2 c0 c1 d).2 ≤ c1 ∧
    ((approxMode2 c0 c1 d).2 = c1 * d / (c0 + c1) ∨
      ((approxMode2 c0 c1 d).2 = c1 * d / (c0 + c1) + 1 ∧
        c1 * d % (c0 + c1) ≠ 0)) := by
  have hn : 0 < c0 + c1 := by omega
  have key : ((c0 + c1) * d) / (c0 + c1) =
      c0 * d / (c0 + c1) + c1 * d / (c0 + c1) +
        if (c0 + c1) ≤ c0 * d % (c0 + c1) + c1 * d % (c0 + c1) then 1
        else 0 := by
    rw [show (c0 + c1) * d = c0 * d + c1 * d from by ring]
    exact Nat.add_div hn
  rw [Nat.mul_div_cancel_left d hn] at key
  have hr0 : c0 * d % (c0 + c1) < c0 + c1 := Nat.mod_lt _ hn
  have hr1 : c1 * d % (c0 + c1) < c0 + c1 := Nat.mod_lt _ hn
  have hf0le : c0 * d / (c0 + c1) ≤ c0 :=
    Nat.div_le_of_le_mul' (by calc
      c0 * d ≤ c0 * (c0 + c1) := Nat.mul_le_mul_left c0 (le_of_lt hd)
      _ = (c0 + c1) * c0 := by ring)
  have hf1le : c1 * d / (c0 + c1) ≤ c1 :=
    Nat.div_le_of_le_mul' (by calc
      c1 * d ≤ c1 * (c0 + c1) := Nat.mul_le_mul_left c1 (le_of_lt hd)
      _ = (c0 + c1) * c1 := by ring)
  unfold approxMode2
  by_cases hIf : (c0 + c1) ≤ c0 * d % (c0 + c1) + c1 * d % (c0 + c1)
  · rw [if_pos hIf] at key
    rw [if_neg (by omega :
      ¬ d - (c0 * d / (c0 + c1) + c1 * d / (c0 + c1)) = 0)]
    by_cases hlt : c0 * d % (c0 + c1) < c1 * d % (c0 + c1)
    · rw [if_pos hlt]
      have hr1pos : 0 < c1 * d % (c0 + c1) := by omega
      have hc1 : 0 < c1 := by
        rcases Nat.eq_zero_or_pos c1 with h0 | h0
        · rw [h0] at hr1pos; simp at hr1pos
        · exact h0
      have hflt : c1 * d / (c0 + c1) < c1 := by
        rw [Nat.div_lt_iff_lt_mul hn]
        exact mul_lt_mul_of_pos_left hd hc1
      exact ⟨by omega, hf0le, by omega, Or.inr ⟨rfl, by omega⟩⟩
    · rw [if_neg hlt]
      have hr0pos : 0 < c0 * d % (c0 + c1) := by omega
      have hc0 : 0 < c0 := by
        rcases Nat.eq_zero_or_pos c0 with h0 | h0
        · rw [h0] at hr0pos; simp at hr0pos
        · exact h0
      have hflt : c0 * d / (c0 + c1) < c0 := by
        rw [Nat.div_lt_iff_lt_mul hn]
        exact mul_lt_mul_of_pos_left hd hc0
      exact ⟨by omega, by omega, hf1le, Or.inl rfl⟩
  · rw [if_neg hIf] at key
    rw [if_pos (by omega :
      d - (c0 * d / (c0 + c1) + c1 * d / (c0 + c1)) = 0)]
    exact ⟨by omega, hf0le, hf1le, Or.inl rfl⟩

theorem zs_os_perm (rows : List LRow) :
    List.Perm
      (rows.filter (fun r => !r.fraud) ++ rows.filter (fun r => r.fraud))
      rows := by
  induction rows with
  | nil => simp
  | cons a as ih =>
    by_cases ha : a.fraud
    · simp only [List.filter_cons, ha, Bool.not_true, decide_True, decide_False,
        if_true, if_false, cond_true, cond_false]
      exact List.Perm.trans List.perm_middle (ih.cons a)
    · simp only [Bool.not_eq_true] at ha
      simp only [List.filter_cons, ha, Bool.not_false, if_true, if_false]
      norm_num
      exact ih

theorem take_drop_perm (zs os : List LRow) (a b : Nat) :
    List.Perm ((zs.take a ++ os.take b) ++ (zs.drop a ++ os.drop b))
      (zs ++ os) := by
  have h1 : List.Perm (os.take b ++ (zs.drop a ++ os.drop b))
      (zs.drop a ++ (os.take b ++ os.drop b)) := by
    refine List.Perm.trans List.perm_append_comm ?_
    rw [List.append_assoc]
    exact List.Perm.append_left _ List.perm_append_comm
  have h2 : List.Perm (zs.take a ++ (os.take b ++ (zs.drop a ++ os.drop b)))
      (zs.take a ++ (zs.drop a ++ (os.take b ++ os.drop b))) :=
    List.Perm.append_left _ h1
  rw [List.append_assoc]
  refine List.Perm.trans h2 ?_
  rw [← List.append_assoc, List.take_append_drop, List.take_append_drop]

theorem nat_div_approx (a n p : Nat) (hn : 0 < n)
    (hp : p = a / n ∨ (p = a / n + 1 ∧ a % n ≠ 0)) :
    |(a : ℚ) / n - p| < 1 := by
  have hmod := Nat.div_add_mod a n
  have hlt : a % n < n := Nat.mod_lt _ hn
  have hn0 : (n : ℚ) ≠ 0 := by positivity
  have hcast : (a : ℚ) = (n : ℚ) * ((a / n : Nat) : ℚ) + ((a % n : Nat) : ℚ) :=
    by exact_mod_cast hmod.symm
  have hq : (a : ℚ) / n = ((a / n : Nat) : ℚ) + ((a % n : Nat) : ℚ) / n := by
    rw [hcast]
    field_simp
    ring
  have hfrac0 : (0 : ℚ) ≤ ((a % n : Nat) : ℚ) / n := by positivity
  have hfrac1 : ((a % n : Nat) : ℚ) / n < 1 := by
    rw [div_lt_one (by positivity)]
    exact_mod_cast hlt
  rcases hp with rfl | ⟨rfl, hne⟩
  · rw [hq, abs_lt]
    constructor <;> [linarith; linarith]
  · rw [hq, abs_lt]
    have hpos : (0 : ℚ) < ((a % n : Nat) : ℚ) / n := by
      apply div_pos _ (by positivity)
      exact_mod_cast Nat.pos_of_ne_zero hne
    push_cast
    constructor <;> linarith

theorem split_spec (rows tr te : List LRow)
    (h : prepare_train_test_split rows = .ok (tr, te)) :
    tr = (rows.filter (fun r => !r.fraud)).take
        (approxMode2 (majorityCount rows) (minorityCount rows)
          (rows.length - nTestOf rows.length)).1 ++
      (rows.filter (fun r => r.fraud)).take
        (approxMode2 (majorityCount rows) (minorityCount rows)
          (rows.length - nTestOf rows.length)).2 ∧
    te = (rows.filter (fun r => !r.fraud)).drop
        (approxMode2 (majorityCount rows) (minorityCount rows)
          (rows.length - nTestOf rows.length)).1 ++
      (rows.filter (fun r => r.fraud)).drop
        (approxMode2 (majorityCount rows) (minorityCount rows)
          (rows.length - nTestOf rows.length)).2 ∧
    nTestOf rows.length ≠ 0 ∧ rows.length - nTestOf rows.length ≠ 0 := by
  simp only [prepare_train_test_split] at h
  split_ifs at h with h1 h2 h3 h4 h5 h6 h7 h8 h9 <;>
    first
      | exact Except.noConfusion h
      | (injection h with hpair
         injection hpair with htr hte
         push_neg at h1
         exact ⟨htr.symm, hte.symm, h1.1, h1.2⟩)

/-- C5 amended: for every valid labeled dataset (distinct row identities) on
which the stratified split succeeds, the Train and Test partitions are
disjoint by row identity and their union is a permutation of the input; the
Test partition holds `ceil(0.2 n)` rows (equal to `0.2 n` when `n` is a
multiple of 5); and the test fraud count is within one row of the exactly
proportional share `c1 * n_test / n` (largest-remainder stratified
allocation).  The ±1-percentage-point bound on the fraud ratio claimed by the
spec does not hold in general (see the counterexample). -/
theorem claim_C5_amended (rows tr te : List LRow)
    (hnd : (rows.map LRow.id).Nodup)
    (h : prepare_train_test_split rows = .ok (tr, te)) :
    (tr ++ te).Perm rows ∧
    (∀ r ∈ tr, ∀ s ∈ te, r.id ≠ s.id) ∧
    te.length = nTestOf rows.length ∧
    |(minorityCount te : ℚ) -
      (minorityCount rows : ℚ) * (nTestOf rows.length : ℚ) /
        (rows.length : ℚ)| < 1 := by
  obtain ⟨htr, hte, hT0, hTr0⟩ := split_spec rows tr te h
  have hlen : majorityCount rows + minorityCount rows = rows.length := by
    have hp := (zs_os_perm rows).length_eq
    rw [List.length_append] at hp
    exact hp
  have hTdef : nTestOf rows.length = (rows.length + 4) / 5 := rfl
  have hnpos : 0 < rows.length := by omega
  have hTle : nTestOf rows.length ≤ rows.length := by omega
  have hd : rows.length - nTestOf rows.length <
      majorityCount rows + minorityCount rows := by omega
  obtain ⟨hsum, hp1, hp2, hchar⟩ :=
    approxMode2_spec (majorityCount rows) (minorityCount rows)
      (rows.length - nTestOf rows.length) hd
  have hperm : (tr ++ te).Perm rows := by
    rw [htr, hte]
    exact (take_drop_perm _ _ _ _).trans (zs_os_perm rows)
  refine ⟨hperm, ?_, ?_, ?_⟩
  · have hnd2 : ((tr ++ te).map LRow.id).Nodup :=
      ((hperm.map LRow.id).nodup_iff).mpr hnd
    rw [List.map_append] at hnd2
    have hdisj := (List.nodup_append.mp hnd2).2.2
    intro r hr s hs heq
    exact hdisj (List.mem_map_of_mem LRow.id hr)
      (heq ▸ List.mem_map_of_mem LRow.id hs)
  · rw [hte, List.length_append, List.length_drop, List.length_drop]
    have hc0 : ((rows.filter (fun r => !r.fraud)).length) = majorityCount rows := rfl
    have hc1 : ((rows.filter (fun r => r.fraud)).length) = minorityCount rows := rfl
    rw [hc0, hc1]
    omega
  · have hmin : minorityCount te =
        minorityCount rows -
          (approxMode2 (majorityCount rows) (minorityCount rows)
            (rows.length - nTestOf rows.length)).2 := by
      rw [hte, minorityCount, List.filter_append]
      have hz : ((rows.filter (fun r => !r.fraud)).drop
          (approxMode2 (majorityCount rows) (minorityCount rows)
            (rows.length - nTestOf rows.length)).1).filter
            (fun r => r.fraud) = [] := by
        apply List.filter_eq_nil.mpr
        intro r hr
        have hr2 := List.mem_filter.mp (List.mem_of_mem_drop hr)
        have hb := hr2.2
        simp only [Bool.not_eq_true'] at hb
        simp [hb]
      have ho : ((rows.filter (fun r => r.fraud)).drop
          (approxMode2 (majorityCount rows) (minorityCount rows)
            (rows.length - nTestOf rows.length)).2).filter
            (fun r => r.fraud) =
          (rows.filter (fun r => r.fraud)).drop
            (approxMode2 (majorityCount rows) (minorityCount rows)
              (rows.length - nTestOf rows.length)).2 := by
        apply List.filter_eq_self.mpr
        intro r hr
        exact (List.mem_filter.mp (List.mem_of_mem_drop hr)).2
      rw [hz, ho, List.nil_append, List.length_drop]
      rfl
    rw [hmin]
    rw [hlen] at hchar
    have hnq : (rows.length : ℚ) ≠ 0 := by positivity
    have hcast : ((minorityCount rows -
        (approxMode2 (majorityCount rows) (minorityCount rows)
          (rows.length - nTestOf rows.length)).2 : Nat) : ℚ) =
        (minorityCount rows : ℚ) -
          ((approxMode2 (majorityCount rows) (minorityCount rows)
            (rows.length - nTestOf rows.length)).2 : ℚ) :=
      Nat.cast_sub hp2
    have hrw : (minorityCount rows : ℚ) -
        (minorityCount rows : ℚ) * (nTestOf rows.length : ℚ) /
          (rows.length : ℚ) =
        ((minorityCount rows * (rows.length - nTestOf rows.length) : Nat) : ℚ) /
          (rows.length : ℚ) := by
      have hsub : ((rows.length - nTestOf rows.length : Nat) : ℚ) =
          (rows.length : ℚ) - (nTestOf rows.length : ℚ) := Nat.cast_sub hTle
      push_cast [hsub]
      field_simp
      ring
    have hgoal : (((minorityCount rows -
        (approxMode2 (majorityCount rows) (minorityCount rows)
          (rows.length - nTestOf rows.length)).2 : Nat) : ℚ)) -
        (minorityCount rows : ℚ) * (nTestOf rows.length : ℚ) /
          (rows.length : ℚ) =
        ((minorityCount rows * (rows.length - nTestOf rows.length) : Nat) : ℚ) /
          (rows.length : ℚ) -
          ((approxMode2 (majorityCount rows) (minorityCount rows)
            (rows.length - nTestOf rows.length)).2 : ℚ) := by
      rw [hcast, ← hrw]
      ring
    rw [hgoal]
    exact nat_div_approx _ _ _ hnpos hchar

def rows130 : List LRow := (List.range 130).map (fun i => ⟨i, decide (100 ≤ i)⟩)

/-- C1 counterexample: a training set with majority count M = 100 and
minority count N = 30 satisfies N < floor(0.5 M) = 50, yet
handle_imbalanced_data does not return a resampled set at all: the SMOTE
minority target floor(0.5 * floor(0.5 * M)) = 25 is below the original
minority count 30, so the oversampler raises a ValueError. -/
theorem claim_C1_counterexample :
    minorityCount rows130 = 30 ∧ majorityCount rows130 = 100 ∧
    minorityCount rows130 < majorityCount rows130 / 2 ∧
    handle_imbalanced_data rows130 1000 =
      .error "SMOTE ValueError: target below original class count" := by
  refine ⟨by decide, by decide, by decide, by rfl⟩

/-- C1 amended: whenever the minority count N satisfies 1 ≤ N and
N ≤ floor(0.5 * floor(0.5 * M)) (with at least 6 minority rows when synthetic
samples must be generated, as SMOTE k-nearest-neighbours requires),
handle_imbalanced_data returns a resampled set whose majority count is
floor(0.5 M) with the kept majority rows a subsequence of the original
majority rows (sampling without replacement), whose minority count is
floor(0.5 * floor(0.5 * M)) ≥ N, and which retains every original minority
row unchanged. -/
theorem claim_C1_amended (rows : List LRow) (fresh : Nat)
    (h1 : 1 ≤ minorityCount rows)
    (h2 : minorityCount rows ≤ majorityCount rows / 2 / 2)
    (h3 : minorityCount rows < majorityCount rows / 2 / 2 →
      6 ≤ minorityCount rows) :
    ∃ out, handle_imbalanced_data rows fresh = .ok out ∧
      majorityCount out = majorityCount rows / 2 ∧
      minorityCount out = majorityCount rows / 2 / 2 ∧
      minorityCount rows ≤ minorityCount out ∧
      (∀ r ∈ rows, r.fraud = true → r ∈ out) ∧
      (out.filter (fun r => !r.fraud)).Sublist
        (rows.filter (fun r => !r.fraud)) := by
  have hc0 : majorityCount rows ≠ 0 := by omega
  have hc1 : minorityCount rows ≠ 0 := by omega
  refine ⟨(rows.filter (fun r => !r.fraud)).take (majorityCount rows / 2) ++
    rows.filter (fun r => r.fraud) ++
    (List.range (majorityCount rows / 2 / 2 - minorityCount rows)).map
      (fun i => ⟨fresh + i, true⟩), ?_, ?_, ?_, ?_, ?_, ?_⟩
  · rw [handle_imbalanced_data]
    rw [if_neg hc0, if_neg hc1,
      if_neg (by omega : ¬ majorityCount rows / 2 / 2 < minorityCount rows),
      if_neg (by
        intro hcon
        exact absurd (h3 hcon.1) (by omega))]
  all_goals
    have hmajf : (((rows.filter (fun r => !r.fraud)).take
          (majorityCount rows / 2) ++ rows.filter (fun r => r.fraud) ++
        (List.range (majorityCount rows / 2 / 2 - minorityCount rows)).map
          (fun i => (⟨fresh + i, true⟩ : LRow))).filter (fun r => !r.fraud)) =
        (rows.filter (fun r => !r.fraud)).take (majorityCount rows / 2) := by
      rw [List.filter_append, List.filter_append]
      have e1 : ((rows.filter (fun r => !r.fraud)).take
          (majorityCount rows / 2)).filter (fun r => !r.fraud) =
          (rows.filter (fun r => !r.fraud)).take (majorityCount rows / 2) :=
        List.filter_eq_self.mpr (fun r hr =>
          (List.mem_filter.mp (List.mem_of_mem_take hr)).2)
      have e2 : (rows.filter (fun r => r.fraud)).filter
          (fun r => !r.fraud) = [] :=
        List.filter_eq_nil_iff.mpr (fun r hr => by
          have hb := (List.mem_filter.mp hr).2
          simp [hb])
      have e3 : (((List.range (majorityCount rows / 2 / 2 -
          minorityCount rows)).map (fun i => (⟨fresh + i, true⟩ : LRow))).filter
          (fun r => !r.fraud)) = [] :=
        List.filter_eq_nil_iff.mpr (fun r hr => by
          obtain ⟨i, hi, rfl⟩ := List.mem_map.mp hr
          simp)
      rw [e1, e2, e3, List.append_nil, List.append_nil]
    have hminf : (((rows.filter (fun r => !r.fraud)).take
          (majorityCount rows / 2) ++ rows.filter (fun r => r.fraud) ++
        (List.range (majorityCount rows / 2 / 2 - minorityCount rows)).map
          (fun i => (⟨fresh + i, true⟩ : LRow))).filter (fun r => r.fraud)) =
        rows.filter (fun r => r.fraud) ++
          (List.range (majorityCount rows / 2 / 2 - minorityCount rows)).map
            (fun i => (⟨fresh + i, true⟩ : LRow)) := by
      rw [List.filter_append, List.filter_append]
      have e1 : (((rows.filter (fun r => !r.fraud)).take
          (majorityCount rows / 2)).filter (fun r => r.fraud)) = [] :=
        List.filter_eq_nil_iff.mpr (fun r hr => by
          have hb := (List.mem_filter.mp (List.mem_of_mem_take hr)).2
          simp only [Bool.not_eq_true'] at hb
          simp [hb])
      have e2 : ((rows.filter (fun r => r.fraud)).filter
          (fun r => r.fraud)) = rows.filter (fun r => r.fraud) :=
        List.filter_eq_self.mpr (fun r hr => (List.mem_filter.mp hr).2)
      have e3 : (((List.range (majorityCount rows / 2 / 2 -
          minorityCount rows)).map (fun i => (⟨fresh + i, true⟩ : LRow))).filter
          (fun r => r.fraud)) =
          (List.range (majorityCount rows / 2 / 2 - minorityCount rows)).map
            (fun i => ⟨fresh + i, true⟩) :=
        List.filter_eq_self.mpr (fun r hr => by
          obtain ⟨i, hi, rfl⟩ := List.mem_map.mp hr
          simp)
      rw [e1, e2, e3, List.nil_append]
    have htake : ((rows.filter (fun r => !r.fraud)).take
        (majorityCount rows / 2)).length = majorityCount rows / 2 := by
      rw [List.length_take]
      exact Nat.min_eq_left (Nat.div_le_self _ _)
  · exact (congrArg List.length hmajf).trans htake
  · refine (congrArg List.length hminf).trans ?_
    rw [List.length_append, List.length_map, List.length_range]
    have hmc : (rows.filter (fun r => r.fraud)).length = minorityCount rows :=
      rfl
    omega
  · refine le_of_le_of_eq
      (by omega : minorityCount rows ≤ majorityCount rows / 2 / 2) ?_
    refine ((congrArg List.length hminf).trans ?_).symm
    rw [List.length_append, List.length_map, List.length_range]
    have hmc : (rows.filter (fun r => r.fraud)).length = minorityCount rows :=
      rfl
    omega
  · intro r hr hf
    have hm : r ∈ rows.filter (fun r => r.fraud) :=
      List.mem_filter.mpr ⟨hr, hf⟩
    exact List.mem_append.mpr (Or.inl (List.mem_append.mpr (Or.inr hm)))
  · rw [hmajf]
    exact List.take_sublist _ _

theorem perm_nodup_id_disjoint (tr te rows : List LRow)
    (hperm : (tr ++ te).Perm rows) (hnd : (rows.map LRow.id).Nodup) :
    ∀ r ∈ tr, ∀ s ∈ te, r.id ≠ s.id := by
  have hnd2 : ((tr ++ te).map LRow.id).Nodup :=
    ((hperm.map LRow.id).nodup_iff).mpr hnd
  rw [List.map_append] at hnd2
  have hdisj := (List.nodup_append.mp hnd2).2.2
  intro r hr s hs heq
  exact hdisj (List.mem_map_of_mem LRow.id hr)
    (heq ▸ List.mem_map_of_mem LRow.id hs)

theorem handle_mem (rows : List LRow) (fresh : Nat) (out : List LRow)
    (h : handle_imbalanced_data rows fresh = .ok out) :
    ∀ b ∈ out, b ∈ rows ∨ fresh ≤ b.id := by
  simp only [handle_imbalanced_data] at h
  split_ifs at h with h1 h2 h3 h4 <;>
    first
      | exact Except.noConfusion h
      | (injection h with hout
         intro b hb
         rw [← hout] at hb
         rcases List.mem_append.mp hb with hb2 | hb2
         · rcases List.mem_append.mp hb2 with hb3 | hb3
           · exact Or.inl
               (List.mem_filter.mp (List.mem_of_mem_take hb3)).1
           · exact Or.inl (List.mem_filter.mp hb3).1
         · obtain ⟨i, hi, rfl⟩ := List.mem_map.mp hb2
           exact Or.inr (Nat.le_add_right fresh i))

/-- C4: in the pipeline of main, the Class Balancer receives only the Train
partition; whenever the pipeline reaches evaluation, the Test partition it
uses is exactly the one produced by the Split Manager, and no row identifier
of the Test partition appears in the Balanced Train Dataset (synthetic rows
receive fresh identifiers above every input identifier). -/
theorem claim_C4_test_isolation (df : List LRow) (fresh : Nat)
    (hnd : (df.map LRow.id).Nodup)
    (hfr : ∀ r ∈ df, r.id < fresh)
    (bal te : List LRow)
    (h : run_pipeline df fresh = .ok (bal, te)) :
    (∃ tr, prepare_train_test_split df = .ok (tr, te)) ∧
    ∀ r ∈ te, ∀ b ∈ bal, r.id ≠ b.id := by
  rw [run_pipeline] at h
  cases hsp : prepare_train_test_split df with
  | error e => rw [hsp] at h; exact Except.noConfusion h
  | ok tt =>
    rw [hsp] at h
    simp only [Bind.bind, Except.bind] at h
    cases hhb : handle_imbalanced_data tt.1 fresh with
    | error e => rw [hhb] at h; exact Except.noConfusion h
    | ok b2 =>
      rw [hhb] at h
      simp only [Pure.pure, Except.pure] at h
      injection h with hpair
      injection hpair with hbal hte2
      subst hbal
      subst hte2
      obtain ⟨htr, hteq, hT0, hTr0⟩ := split_spec df tt.1 tt.2 hsp
      have hperm : (tt.1 ++ tt.2).Perm df := by
        rw [htr, hteq]
        exact (take_drop_perm _ _ _ _).trans (zs_os_perm df)
      have hdisj := perm_nodup_id_disjoint tt.1 tt.2 df hperm hnd
      refine ⟨⟨tt.1, rfl⟩, ?_⟩
      intro r hr b hb heq
      rcases handle_mem tt.1 fresh b2 hhb b hb with hbtr | hbfresh
      · exact hdisj b hbtr r hr heq.symm
      · have hrdf : r ∈ df := hperm.subset (List.mem_append.mpr (Or.inr hr))
        have := hfr r hrdf
        omega

/-- A valid 20-row dataset: 18 legitimate rows (ids 0-17) and 2 fraud rows
(ids 18, 19). -/
def df20 : List LRow := (List.range 20).map (fun i => ⟨i, decide (18 ≤ i)⟩)

/-- The train partition the split produces on `df20`. -/
def tr20 : List LRow :=
  (List.range 14).map (fun i => ⟨i, false⟩) ++ [⟨18, true⟩, ⟨19, true⟩]

/-- The test partition the split produces on `df20`: four legitimate rows,
no fraud row. -/
def te20 : List LRow := [⟨14, false⟩, ⟨15, false⟩, ⟨16, false⟩, ⟨17, false⟩]

/-- C5 counterexample: on the valid 20-row dataset `df20` the split succeeds
and the test partition holds the configured fraction (4 = 0.2 * 20 rows), but
its fraud ratio is 0 while the input fraud ratio is 10%, a deviation of 10
percentage points — far outside the claimed ±1-percentage-point tolerance
(the largest-remainder stratified allocation gives both fraud rows to the
train partition regardless of the seed). -/
theorem claim_C5_counterexample :
    (df20.map LRow.id).Nodup ∧
    prepare_train_test_split df20 = .ok (tr20, te20) ∧
    te20.length = 4 ∧ df20.length = 20 ∧
    fraudRatio df20 = 1 / 10 ∧ fraudRatio te20 = 0 ∧
    (1 / 100 : ℚ) < |fraudRatio te20 - fraudRatio df20| := by
  have h1 : minorityCount df20 = 2 := by decide
  have h2 : df20.length = 20 := by decide
  have h3 : minorityCount te20 = 0 := by decide
  have hr1 : fraudRatio df20 = 1 / 10 := by
    rw [fraudRatio, h1, h2]
    norm_num
  have hr2 : fraudRatio te20 = 0 := by
    rw [fraudRatio, h3]
    norm_num
  refine ⟨by decide, by rfl, by decide, h2, hr1, hr2, ?_⟩
  rw [hr1, hr2]
  rw [abs_of_nonpos (by norm_num)]
  norm_num

/-- Witness for the amended C5 theorem at the concrete dataset `df20`. -/
theorem claim_C5_amended_witness :
    (df20.map LRow.id).Nodup ∧
    prepare_train_test_split df20 = .ok (tr20, te20) ∧
    ((tr20 ++ te20).Perm df20 ∧ (∀ r ∈ tr20, ∀ s ∈ te20, r.id ≠ s.id) ∧
      te20.length = nTestOf df20.length ∧
      |(minorityCount te20 : ℚ) - (minorityCount df20 : ℚ) *
        (nTestOf df20.length : ℚ) / (df20.length : ℚ)| < 1) :=
  ⟨by decide, by rfl, claim_C5_amended df20 tr20 te20 (by decide) (by rfl)⟩

/-- A training set with 28 majority rows (ids 0-27) and 6 minority rows
(ids 28-33). -/
def rows34 : List LRow := (List.range 34).map (fun i => ⟨i, decide (28 ≤ i)⟩)

/-- Witness for the amended C1 theorem at the concrete training set
`rows34` (M = 28, N = 6, targets 14 and 7, one synthetic row). -/
theorem claim_C1_amended_witness :
    ∃ out, handle_imbalanced_data rows34 1000 = .ok out ∧
      majorityCount out = majorityCount rows34 / 2 ∧
      minorityCount out = majorityCount rows34 / 2 / 2 ∧
      minorityCount rows34 ≤ minorityCount out ∧
      (∀ r ∈ rows34, r.fraud = true → r ∈ out) ∧
      (out.filter (fun r => !r.fraud)).Sublist
        (rows34.filter (fun r => !r.fraud)) :=
  claim_C1_amended rows34 1000 (by decide) (by decide) (by decide)

/-- A valid 60-row dataset: 50 legitimate rows (ids 0-49) and 10 fraud rows
(ids 50-59); 100 is above every identifier. -/
def df60 : List LRow := (List.range 60).map (fun i => ⟨i, decide (50 ≤ i)⟩)

/-- The balanced train set the pipeline produces on `df60`: 20 kept majority
rows, 8 original minority rows, 2 synthetic rows with fresh ids 100, 101. -/
def bal60 : List LRow :=
  (List.range 20).map (fun i => ⟨i, false⟩) ++
    (List.range' 50 8).map (fun i => ⟨i, true⟩) ++ [⟨100, true⟩, ⟨101, true⟩]

/-- The test partition the split produces on `df60`. -/
def te60 : List LRow :=
  (List.range' 40 10).map (fun i => ⟨i, false⟩) ++ [⟨58, true⟩, ⟨59, true⟩]

/-- Witness for the C4 theorem at the concrete dataset `df60` with fresh
identifier base 100. -/
theorem claim_C4_test_isolation_witness :
    (df60.map LRow.id).Nodup ∧ (∀ r ∈ df60, r.id < 100) ∧
    run_pipeline df60 100 = .ok (bal60, te60) ∧
    ((∃ tr, prepare_train_test_split df60 = .ok (tr, te60)) ∧
      ∀ r ∈ te60, ∀ b ∈ bal60, r.id ≠ b.id) :=
  ⟨by decide, by decide, by rfl,
    claim_C4_test_isolation df60 100 (by decide) (by decide) bal60 te60
      (by rfl)⟩
